import Mathlib

/-!
Shallow embedding of the canonize stage of the lorch pipeline
(src/lorch/stages/canonize.py), together with theorems checking the
natural-language specification against the code.

Filesystem state is modelled explicitly: association lists from path
strings to file contents, plus a list of created directories.  The
external transform engine is an injected function from the text fed to
its standard input to an exit code, captured standard output and
captured standard error.  Python string operations are modelled on the
character level (Lean Char lists), matching Python code-point slicing.
-/

set_option maxRecDepth 16384

namespace Lorch

/-- Python str.replace applied to single characters, as used for
source.replace in the stage: every slash becomes an underscore. -/
def slashToUnderscore (s : String) : String :=
  ⟨s.data.map (fun c => if c = '/' then '_' else c)⟩

/-- Python result.stdout.count of the newline character: the number of
newline characters in the string. -/
def countNewlines (s : String) : Nat :=
  s.data.count '\n'

/-- Python character slicing from the start, stderr up to index 500:
the first n characters of the string. -/
def takeChars (s : String) (n : Nat) : String :=
  ⟨s.data.take n⟩

/-- Lookup in an association list of paths to file contents, modelling a
read of the filesystem. -/
def lookupA : List (String × String) → String → Option String
  | [], _ => none
  | kv :: rest, key => if kv.1 = key then some kv.2 else lookupA rest key

/-- Deletion of a path from the modelled filesystem, as done by
output_file.unlink in the stage. -/
def removeFile (p : String) (fs : List (String × String)) : List (String × String) :=
  fs.filter (fun kv => kv.1 != p)

/-- Creation or overwrite of a file with the given full content. -/
def setFile (p v : String) (fs : List (String × String)) : List (String × String) :=
  (p, v) :: removeFile p fs

/-- The mkdir call with parents and exist_ok: records the directory as
created, once. -/
def insertDir (d : String) (dirs : List String) : List String :=
  if dirs.contains d then dirs else dirs ++ [d]

/-- Output directory state: created directories and files with their
contents. -/
structure OutState where
  dirs : List String
  files : List (String × String)
deriving DecidableEq

/-- Captured result of one run of the external canonizer subprocess. -/
structure EngineResult where
  returncode : Int
  stdout : String
  stderr : String
deriving DecidableEq

/-- The error message built by transform_gzip_part when the canonizer
exits with a non-zero code: the exit code always, and the first 500
characters of standard error when standard error is non-empty. -/
def canonizerErrorMsg (partName : String) (returncode : Int) (stderr : String) : String :=
  let base := "Canonizer failed on " ++ partName ++ " with exit code " ++ toString returncode
  if stderr = "" then base else base ++ ": " ++ takeChars stderr 500

/-- Embedding of CanonizeStage transform_gzip_part.  The part file has
already been decompressed to input_data; outFileContent is the current
content of the output file (none when the file does not exist).  On a
zero exit code it returns the line-count proxy record count and the new
output file content, the captured standard output appended to the old
content; on a non-zero exit code it fails with the canonizer error
message and no file is touched. -/
def transform_gzip_part (engine : String → EngineResult) (partName : String)
    (input_data : String) (outFileContent : Option String) : Except String (Nat × String) :=
  let result := engine input_data
  if result.returncode ≠ 0 then
    .error (canonizerErrorMsg partName result.returncode result.stderr)
  else
    .ok (countNewlines result.stdout, outFileContent.getD "" ++ result.stdout)

/-- One data part as listed in a manifest: an optional sequence number
(the code reads it with a default of 0) and a relative path. -/
structure Part where
  seq : Option Int
  path : String
deriving DecidableEq

/-- The sort key used by the stage: part.get of seq with default 0. -/
def partKey (p : Part) : Int :=
  p.seq.getD 0

/-- Ascending order on parts by their sort key. -/
def partLe (a b : Part) : Prop :=
  partKey a ≤ partKey b

instance : DecidableRel partLe := fun a b => Int.decLe (partKey a) (partKey b)

instance : IsTotal Part partLe := ⟨fun a b => Int.le_total (partKey a) (partKey b)⟩

instance : IsTrans Part partLe := ⟨fun _ _ _ hab hbc => le_trans hab hbc⟩

/-- Embedding of the Python sorted call on parts with key seq default 0:
a stable sort ascending by the part key. -/
def sortParts (ps : List Part) : List Part :=
  List.insertionSort partLe ps

instance instDecidableEqExcept {ε α : Type} [DecidableEq ε] [DecidableEq α] :
    DecidableEq (Except ε α) := fun a b =>
  match a, b with
  | .error e1, .error e2 =>
    if h : e1 = e2 then .isTrue (congrArg Except.error h)
    else .isFalse (fun hc => h (by cases hc; rfl))
  | .ok a1, .ok a2 =>
    if h : a1 = a2 then .isTrue (congrArg Except.ok h)
    else .isFalse (fun hc => h (by cases hc; rfl))
  | .error _, .ok _ => .isFalse (fun hc => Except.noConfusion hc)
  | .ok _, .error _ => .isFalse (fun hc => Except.noConfusion hc)

/-- A parsed manifest: the fields the stage reads.  Absent JSON keys are
modelled as none; the code substitutes defaults via dict.get. -/
structure Manifest where
  account : Option String
  source : Option String
  parts : Option (List Part)
deriving DecidableEq

/-- One run directory in the vault: the parse outcome of manifest.json
(error models a raised exception from json.load), and the part files
that exist on disk, keyed by manifest-relative path, with their already
decompressed text contents. -/
structure RunDir where
  manifest : Except String Manifest
  partFiles : List (String × String)
deriving DecidableEq

/-- The per-source output directory derived from the manifest:
output_dir joined with the source field, slashes replaced by
underscores, defaulting to unknown. -/
def accountOutputDir (output_dir : String) (m : Manifest) : String :=
  output_dir ++ "/" ++ slashToUnderscore (m.source.getD "unknown")

/-- The per-account canonical output file path derived from the
manifest: the per-source directory joined with account.jsonl, the
account defaulting to unknown. -/
def outputFileOf (output_dir : String) (m : Manifest) : String :=
  accountOutputDir output_dir m ++ "/" ++ m.account.getD "unknown" ++ ".jsonl"

/-- The per-part loop of transform_from_manifest: parts are taken in the
given (already sorted) order; a part whose file does not exist is
skipped; otherwise transform_gzip_part runs and either appends to the
output file or raises, the raise propagating with the filesystem state
reached so far. -/
def processParts (engine : String → EngineResult) (partFiles : List (String × String))
    (output_file : String) :
    List Part → Nat → OutState → OutState × Except String Nat
  | [], total_records, st => (st, .ok total_records)
  | part :: rest, total_records, st =>
    match lookupA partFiles part.path with
    | none => processParts engine partFiles output_file rest total_records st
    | some input_data =>
      match transform_gzip_part engine part.path input_data (lookupA st.files output_file) with
      | .error e => (st, .error e)
      | .ok (records, newContent) =>
        processParts engine partFiles output_file rest (total_records + records)
          ⟨st.dirs, setFile output_file newContent st.files⟩

/-- Embedding of CanonizeStage transform_from_manifest.  The manifest
parse outcome and part files come from the run directory; the registry
is modelled by its path string together with the list of transform names
whose meta file exists.  Mirrors the source order: manifest read, empty
parts early return, transform meta existence check, output directory
creation, deletion of the pre-existing output file, then the part loop
over the parts sorted by seq. -/
def transform_from_manifest (engine : String → EngineResult)
    (transform_registry : String) (registryNames : List String)
    (transform_name : String) (run : RunDir) (output_dir : String)
    (output_name : String) (st : OutState) : OutState × Except String Nat :=
  match run.manifest with
  | .error e => (st, .error e)
  | .ok manifest =>
    let parts := manifest.parts.getD []
    if parts = [] then (st, .ok 0)
    else if !(registryNames.contains transform_name) then
      (st, .error ("Transform metadata not found: " ++ transform_registry ++ "/" ++
        transform_name ++ ".meta.yaml"))
    else
      let account_output_dir := accountOutputDir output_dir manifest
      let output_file := outputFileOf output_dir manifest
      let st1 : OutState := ⟨insertDir account_output_dir st.dirs, removeFile output_file st.files⟩
      processParts engine run.partFiles output_file (sortParts parts) 0 st1

/-- The content of the LATEST.json marker: the dt and run_id fields,
absent JSON keys modelled as none. -/
structure LatestData where
  dt : Option String
  run_id : Option String
deriving DecidableEq

/-- One account directory under a source directory of the vault: its
name, whether the entry is a directory, the LATEST.json marker state
(none when the marker file does not exist; an error value when reading
or parsing it raises), and the run directories that exist, keyed by the
pair of dt and run_id. -/
structure AccountDir where
  name : String
  isDir : Bool
  latest : Option (Except String LatestData)
  runs : List ((String × String) × RunDir)
deriving DecidableEq

/-- Lookup of a run directory by dt and run_id; presence in the list
models existence of the manifest.json file at that path. -/
def lookupRun : List ((String × String) × RunDir) → String → String → Option RunDir
  | [], _, _ => none
  | kv :: rest, dt, rid =>
    if kv.1.1 = dt ∧ kv.1.2 = rid then some kv.2 else lookupRun rest dt rid

/-- A manifest resolved by the locator: the account name, the dt and
run_id taken from the marker, the run directory it points to, and the
full manifest path string. -/
structure FoundManifest where
  account_name : String
  dt : String
  run_id : String
  run : RunDir
  path : String
deriving DecidableEq

/-- The per-account body of the find_manifests loop: skips entries that
are not directories, accounts without a LATEST.json marker, markers that
raise while being read or parsed, markers with missing or empty dt or
run_id, and markers pointing at a run whose manifest.json does not
exist; otherwise yields the resolved manifest. -/
def resolveAccount (vault_root source_path : String) (a : AccountDir) :
    Option FoundManifest :=
  if !a.isDir then none
  else
    match a.latest with
    | none => none
    | some (.error _) => none
    | some (.ok d) =>
      match d.dt, d.run_id with
      | some dt, some rid =>
        if dt = "" ∨ rid = "" then none
        else
          match lookupRun a.runs dt rid with
          | none => none
          | some run =>
            some ⟨a.name, dt, rid, run,
              vault_root ++ "/" ++ source_path ++ "/" ++ a.name ++ "/dt=" ++ dt ++
                "/run_id=" ++ rid ++ "/manifest.json"⟩
      | _, _ => none

/-- The vault as seen by the locator: for each source path that exists
as a directory, the list of entries of that directory. -/
def Vault := List (String × List AccountDir)

/-- Resolution of vault_root joined with source_path: none models a
source directory that does not exist. -/
def lookupSource : List (String × List AccountDir) → String → Option (List AccountDir)
  | [], _ => none
  | kv :: rest, key => if kv.1 = key then some kv.2 else lookupSource rest key

/-- Embedding of CanonizeStage find_manifests: an empty list when the
source directory does not exist, otherwise one resolved manifest per
account directory that passes every check, in directory order. -/
def find_manifests (vault_root : String) (vault : List (String × List AccountDir))
    (source_path : String) : List FoundManifest :=
  match lookupSource vault source_path with
  | none => []
  | some accountDirs => accountDirs.filterMap (resolveAccount vault_root source_path)

/-- One configured mapping: the vault-relative source pattern, the
transform name, and the optional output name (read with a default of
canonical, then unused by the manifest flow). -/
structure Mapping where
  source_pattern : String
  transform : String
  output_name : Option String
deriving DecidableEq

/-- The metadata dictionary attached to a successful stage result; the
errors field carries the number of failed manifests. -/
structure ResultMetadata where
  mappings_applied : Nat
  manifests_processed : Nat
  errors : Nat
deriving DecidableEq

/-- The stage result produced by execute: success flag, record count,
declared output files, error message of the failure branch, and the
metadata of the success branch. -/
structure StageResult where
  success : Bool
  records_processed : Nat
  output_files : List String
  error_message : Option String
  metadata : Option ResultMetadata
deriving DecidableEq

/-- The non-recursive glob pattern star dot jsonl applied to the output
directory: true exactly for paths directly inside output_dir (no
further slash) that end in the jsonl suffix. -/
def isDirectJsonlChild (output_dir p : String) : Bool :=
  let pre := (output_dir ++ "/").data
  pre.isPrefixOf p.data &&
    !((p.data.drop pre.length).contains '/') &&
    ".jsonl".data.isSuffixOf (p.data.drop pre.length)

/-- Embedding of the output-file collection of execute, the glob call on
the output directory with the star dot jsonl pattern: the files of the
modelled filesystem directly inside the output directory whose name ends
in the jsonl suffix.  The glob does not recurse into subdirectories. -/
def globJsonl (output_dir : String) (files : List (String × String)) : List String :=
  (files.map Prod.fst).filter (isDirectJsonlChild output_dir)

/-- The inner manifest loop of execute: each manifest is transformed;
a raise is caught and recorded as an error string naming the manifest
path and the message, and the loop continues with the next manifest. -/
def processManifests (engine : String → EngineResult) (transform_registry : String)
    (registryNames : List String) (transform_name output_dir output_name : String) :
    List FoundManifest → Nat → List String → OutState → Nat × List String × OutState
  | [], total_records, errors, st => (total_records, errors, st)
  | fm :: rest, total_records, errors, st =>
    let step := transform_from_manifest engine transform_registry registryNames
      transform_name fm.run output_dir output_name st
    match step.2 with
    | .ok records_processed =>
      processManifests engine transform_registry registryNames transform_name
        output_dir output_name rest (total_records + records_processed) errors step.1
    | .error e =>
      processManifests engine transform_registry registryNames transform_name
        output_dir output_name rest total_records
        (errors ++ ["Failed to transform manifest " ++ fm.path ++ ": " ++ e]) step.1

/-- The outer mapping loop of execute: manifests are located for the
source pattern of each mapping; a mapping with no manifests is skipped
with a warning only. -/
def goMappings (engine : String → EngineResult) (vault_root : String)
    (vault : List (String × List AccountDir)) (transform_registry : String)
    (registryNames : List String) (output_dir : String) :
    List Mapping → Nat → List String → OutState → Nat × List String × OutState
  | [], total_records, errors, st => (total_records, errors, st)
  | m :: rest, total_records, errors, st =>
    let manifests := find_manifests vault_root vault m.source_pattern
    if manifests = [] then
      goMappings engine vault_root vault transform_registry registryNames output_dir
        rest total_records errors st
    else
      let step := processManifests engine transform_registry registryNames m.transform
        output_dir (m.output_name.getD "canonical") manifests total_records errors st
      goMappings engine vault_root vault transform_registry registryNames output_dir
        rest step.1 step.2.1 step.2.2

/-- Embedding of CanonizeStage execute: runs every mapping, collects the
output files by the non-recursive glob on the output directory, and
applies the stage result policy: failure exactly when at least one error
was recorded and the collected output file list is empty, the message
naming the error count and the first error; success otherwise, with the
error count in the metadata. -/
def execute (engine : String → EngineResult) (vault_root : String)
    (vault : List (String × List AccountDir)) (transform_registry : String)
    (registryNames : List String) (mappings : List Mapping) (output_dir : String)
    (st : OutState) : StageResult × OutState :=
  let run := goMappings engine vault_root vault transform_registry registryNames
    output_dir mappings 0 [] st
  let total_records := run.1
  let errors := run.2.1
  let stFinal := run.2.2
  let output_files := globJsonl output_dir stFinal.files
  match errors, output_files with
  | e :: _, [] =>
    (⟨false, 0, [], some (toString errors.length ++ " transform(s) failed: " ++ e), none⟩,
      stFinal)
  | _, _ =>
    (⟨true, total_records, output_files, none,
      some ⟨mappings.length, total_records, errors.length⟩⟩, stFinal)

/-- The total record count produced by the part loop over a list of
parts in the given order: a part whose file is missing contributes
nothing, a part whose file exists contributes the newline count of the
engine output on its content. -/
def runRecords (engine : String → EngineResult) (partFiles : List (String × String)) :
    List Part → Nat
  | [] => 0
  | p :: rest =>
    (match lookupA partFiles p.path with
     | none => 0
     | some c => countNewlines (engine c).stdout) + runRecords engine partFiles rest

/-- The output file content produced by the part loop over a list of
parts in the given order, starting from the given prior content (none
when the file does not exist): a part whose file is missing is skipped,
a part whose file exists appends the engine output on its content,
creating the file when absent. -/
def runContent (engine : String → EngineResult) (partFiles : List (String × String)) :
    List Part → Option String → Option String
  | [], prior => prior
  | p :: rest, prior =>
    match lookupA partFiles p.path with
    | none => runContent engine partFiles rest prior
    | some c => runContent engine partFiles rest (some (prior.getD "" ++ (engine c).stdout))

/-- The validity condition the locator checks for one account directory,
spelled as the spec states it: the entry is a directory, its LATEST.json
marker exists and parses, both dt and run_id are present and non-empty,
and the run the marker points to has a manifest.json on disk. -/
def validAccount (a : AccountDir) : Prop :=
  a.isDir = true ∧
  ∃ d, a.latest = some (.ok d) ∧
    ∃ dt rid, d.dt = some dt ∧ d.run_id = some rid ∧ dt ≠ "" ∧ rid ≠ "" ∧
      (lookupRun a.runs dt rid).isSome = true

/-- Demo manifest for concrete evaluations: one part, account acct,
source email slash gmail. -/
def demoManifest : Manifest :=
  ⟨some "acct", some "email/gmail", some [⟨some 0, "part-000.jsonl.gz"⟩]⟩

/-- Demo run directory holding demoManifest and its single part file. -/
def demoRun : RunDir :=
  ⟨.ok demoManifest, [("part-000.jsonl.gz", "in")]⟩

/-- Demo account directory with a valid marker pointing at demoRun. -/
def demoAccount : AccountDir :=
  ⟨"acct", true, some (.ok ⟨some "2024-01-01", some "r1"⟩),
    [(("2024-01-01", "r1"), demoRun)]⟩

/-- Demo vault with a single source directory and account. -/
def demoVault : List (String × List AccountDir) :=
  [("email/gmail", [demoAccount])]

/-- Demo engine that always succeeds and emits one record line. -/
def demoEngine : String → EngineResult := fun _ => ⟨0, "rec\n", ""⟩

/-- Second demo account under a second source, used for the two-mapping
scenario; its manifest is fine but its transform meta will be absent. -/
def demoAccountB : AccountDir :=
  ⟨"acctB", true, some (.ok ⟨some "2024-01-02", some "r1"⟩),
    [(("2024-01-02", "r1"),
      ⟨.ok ⟨some "acctB", some "email/outlook", some [⟨some 0, "part-000.jsonl.gz"⟩]⟩,
        [("part-000.jsonl.gz", "inB")]⟩)]⟩

/-- Demo vault with two source directories, one account each. -/
def demoVault2 : List (String × List AccountDir) :=
  [("email/gmail", [demoAccount]), ("email/outlook", [demoAccountB])]

/-- Two demo mappings: the first resolves its transform meta, the second
references a transform whose meta file does not exist. -/
def demoMappings2 : List Mapping :=
  [⟨"email/gmail", "t", none⟩, ⟨"email/outlook", "t2", none⟩]

/-- Demo run directory whose manifest parses with an empty parts list. -/
def demoEmptyPartsRun : RunDir :=
  ⟨.ok ⟨some "acct", some "email/gmail", some []⟩, []⟩

/-- Demo run directory whose manifest parses with no parts key at all. -/
def demoNoPartsKeyRun : RunDir :=
  ⟨.ok ⟨some "acct", some "email/gmail", none⟩, []⟩

/-- Demo output state holding a stale canonical output file for the
demo account. -/
def demoStaleState : OutState :=
  ⟨[], [("out/email_gmail/acct.jsonl", "stale\n")]⟩

/-- Demo engine that echoes its input followed by a newline. -/
def echoEngine : String → EngineResult := fun s => ⟨0, s ++ "\n", ""⟩

/-- Demo parts listed out of seq order with non-contiguous seq values. -/
def demoUnorderedParts : List Part :=
  [⟨some 2, "pc"⟩, ⟨some 0, "pa"⟩, ⟨some 7, "pb"⟩]

/-- Demo manifest listing demoUnorderedParts. -/
def demoUnorderedManifest : Manifest :=
  ⟨some "acct", some "email/gmail", some demoUnorderedParts⟩

/-- Demo run directory listing demoUnorderedParts, all present on
disk. -/
def demoUnorderedRun : RunDir :=
  ⟨.ok demoUnorderedManifest, [("pa", "A"), ("pc", "C"), ("pb", "B")]⟩

/-- Demo engine that always fails with exit code 3 and diagnostic text
on standard error. -/
def failEngine : String → EngineResult := fun _ => ⟨3, "", "boom"⟩

/-- Demo manifest with three parts, one of which will be missing on
disk. -/
def demoMissingPartManifest : Manifest :=
  ⟨some "acct", some "email/gmail",
    some [⟨some 0, "p0"⟩, ⟨some 1, "p1"⟩, ⟨some 2, "p2"⟩]⟩

/-- Demo run directory with three parts of which the middle one is
missing on disk; the two present parts carry two records and one
record. -/
def demoMissingPartRun : RunDir :=
  ⟨.ok demoMissingPartManifest, [("p0", "x\ny\n"), ("p2", "z\n")]⟩

/-- Demo engine that copies its input to its output unchanged. -/
def idEngine : String → EngineResult := fun s => ⟨0, s, ""⟩

/-- Demo account directory that is not a directory entry. -/
def demoNotDir : AccountDir := ⟨"nd", false, none, []⟩

/-- Demo account directory without a LATEST.json marker. -/
def demoNoMarker : AccountDir := ⟨"nm", true, none, []⟩

/-- Demo account directory whose marker raises while being read. -/
def demoBadMarker : AccountDir := ⟨"bm", true, some (.error "oops"), []⟩

/-- Demo account directory whose marker has an empty dt field. -/
def demoEmptyDt : AccountDir := ⟨"ed", true, some (.ok ⟨some "", some "r"⟩), []⟩

/-- Demo account directory whose marker lacks the run_id field. -/
def demoMissingRid : AccountDir := ⟨"mr", true, some (.ok ⟨some "d", none⟩), []⟩

/-- Demo account directory whose marker points at a run with no
manifest.json on disk. -/
def demoStaleMarker : AccountDir := ⟨"sr", true, some (.ok ⟨some "d", some "r"⟩), []⟩

/-- Demo account listing mixing one valid account with every kind of
invalid one. -/
def demoMixedAccounts : List AccountDir :=
  [demoAccount, demoNotDir, demoNoMarker, demoBadMarker, demoEmptyDt,
    demoMissingRid, demoStaleMarker]

/-- Demo vault for the locator claim: one source directory with the
mixed account listing. -/
def demoVault7 : List (String × List AccountDir) :=
  [("email/gmail", demoMixedAccounts)]

/-- Reading back a file just written yields the written content. -/
theorem lookupA_setFile_self (p v : String) (fs : List (String × String)) :
    lookupA (setFile p v fs) p = some v := by
  simp [setFile, lookupA]

/-- Reading a file just deleted yields nothing. -/
theorem lookupA_removeFile_self (p : String) (fs : List (String × String)) :
    lookupA (removeFile p fs) p = none := by
  induction fs with
  | nil => rfl
  | cons kv rest ih =>
    by_cases h : kv.1 = p
    · simpa [removeFile, List.filter_cons, h] using ih
    · simpa [removeFile, List.filter_cons, h, lookupA] using ih

/-- The outcome of the part loop and the resulting content of the output
file depend on the prior filesystem only through the prior content of
the output file itself. -/
theorem processParts_content_congr (engine : String → EngineResult)
    (partFiles : List (String × String)) (f : String) (ps : List Part) :
    ∀ (total : Nat) (st₁ st₂ : OutState),
      lookupA st₁.files f = lookupA st₂.files f →
      (processParts engine partFiles f ps total st₁).2 =
        (processParts engine partFiles f ps total st₂).2 ∧
      lookupA (processParts engine partFiles f ps total st₁).1.files f =
        lookupA (processParts engine partFiles f ps total st₂).1.files f := by
  induction ps with
  | nil =>
    intro total st₁ st₂ h
    exact ⟨rfl, h⟩
  | cons p rest ih =>
    intro total st₁ st₂ h
    cases hlk : lookupA partFiles p.path with
    | none =>
      simp only [processParts, hlk]
      exact ih total st₁ st₂ h
    | some c =>
      simp only [processParts, hlk]
      rw [h]
      cases htgp : transform_gzip_part engine p.path c (lookupA st₂.files f) with
      | error e => exact ⟨rfl, h⟩
      | ok rc =>
        exact ih (total + rc.1) ⟨st₁.dirs, setFile f rc.2 st₁.files⟩
          ⟨st₂.dirs, setFile f rc.2 st₂.files⟩
          (by rw [lookupA_setFile_self, lookupA_setFile_self])

/-- When the engine succeeds on every part file that exists, the part
loop returns the accumulated record count plus the run record count, the
output file ends with the run content applied to its prior content, and
the directory state is untouched. -/
theorem processParts_run (engine : String → EngineResult)
    (partFiles : List (String × String)) (f : String) (ps : List Part)
    (hok : ∀ p ∈ ps, ∀ c, lookupA partFiles p.path = some c → (engine c).returncode = 0) :
    ∀ (total : Nat) (st : OutState),
      (processParts engine partFiles f ps total st).2 =
        .ok (total + runRecords engine partFiles ps) ∧
      lookupA (processParts engine partFiles f ps total st).1.files f =
        runContent engine partFiles ps (lookupA st.files f) ∧
      (processParts engine partFiles f ps total st).1.dirs = st.dirs := by
  induction ps with
  | nil =>
    intro total st
    simp [processParts, runRecords, runContent]
  | cons p rest ih =>
    intro total st
    have hok_rest : ∀ q ∈ rest, ∀ c, lookupA partFiles q.path = some c →
        (engine c).returncode = 0 :=
      fun q hq c hc => hok q (List.mem_cons_of_mem p hq) c hc
    cases hlk : lookupA partFiles p.path with
    | none =>
      have := ih hok_rest total st
      simpa [processParts, runRecords, runContent, hlk] using this
    | some c =>
      have hrc : (engine c).returncode = 0 := hok p (List.mem_cons_self p rest) c hlk
      have htgp : transform_gzip_part engine p.path c (lookupA st.files f) =
          .ok (countNewlines (engine c).stdout,
            (lookupA st.files f).getD "" ++ (engine c).stdout) := by
        simp [transform_gzip_part, hrc]
      have step := ih hok_rest (total + countNewlines (engine c).stdout)
        ⟨st.dirs, setFile f ((lookupA st.files f).getD "" ++ (engine c).stdout) st.files⟩
      refine ⟨?_, ?_, ?_⟩
      · simp only [processParts, hlk, htgp, runRecords]
        rw [step.1, Nat.add_assoc]
      · simp only [processParts, hlk, htgp, runContent]
        rw [step.2.1, lookupA_setFile_self]
      · simp only [processParts, hlk, htgp]
        exact step.2.2

/-- Unfolding of transform_from_manifest in the processing case: the
manifest parsed, the parts list is non-empty and the transform meta
exists, so the stage creates the per-source directory, deletes the old
output file and runs the part loop on the parts sorted by seq. -/
theorem transform_from_manifest_processing (engine : String → EngineResult)
    (transform_registry : String) (registryNames : List String) (transform_name : String)
    (run : RunDir) (output_dir output_name : String) (st : OutState) (m : Manifest)
    (hm : run.manifest = .ok m) (hne : m.parts.getD [] ≠ [])
    (hmeta : registryNames.contains transform_name = true) :
    transform_from_manifest engine transform_registry registryNames transform_name
        run output_dir output_name st =
      processParts engine run.partFiles (outputFileOf output_dir m)
        (sortParts (m.parts.getD [])) 0
        ⟨insertDir (accountOutputDir output_dir m) st.dirs,
          removeFile (outputFileOf output_dir m) st.files⟩ := by
  simp only [transform_from_manifest, hm, hne, hmeta]
  simp [hne]

/-- A resolved manifest carries the name of the account it came from. -/
theorem resolveAccount_name (vault_root source_path : String) (a : AccountDir)
    (fm : FoundManifest) (h : resolveAccount vault_root source_path a = some fm) :
    fm.account_name = a.name := by
  unfold resolveAccount at h
  by_cases hd : a.isDir
  · simp only [hd] at h
    cases hl : a.latest with
    | none => rw [hl] at h; cases h
    | some e =>
      rw [hl] at h
      cases e with
      | error msg => cases h
      | ok d =>
        cases hdt : d.dt with
        | none => simp [hdt] at h
        | some dt =>
          cases hrid : d.run_id with
          | none => simp [hdt, hrid] at h
          | some rid =>
            simp only [hdt, hrid] at h
            by_cases hemp : dt = "" ∨ rid = ""
            · simp [hemp] at h
            · simp only [hemp, if_false] at h
              cases hrun : lookupRun a.runs dt rid with
              | none => rw [hrun] at h; cases h
              | some r =>
                rw [hrun] at h
                cases h
                rfl
  · simp [hd] at h

/-- A resolved manifest carries the path built from the marker fields
and points at the run directory that exists under those fields. -/
theorem resolveAccount_path_run (vault_root source_path : String) (a : AccountDir)
    (fm : FoundManifest) (h : resolveAccount vault_root source_path a = some fm) :
    fm.path = vault_root ++ "/" ++ source_path ++ "/" ++ a.name ++ "/dt=" ++ fm.dt ++
      "/run_id=" ++ fm.run_id ++ "/manifest.json" ∧
    lookupRun a.runs fm.dt fm.run_id = some fm.run := by
  unfold resolveAccount at h
  by_cases hd : a.isDir
  · simp only [hd] at h
    cases hl : a.latest with
    | none => rw [hl] at h; cases h
    | some e =>
      rw [hl] at h
      cases e with
      | error msg => cases h
      | ok d =>
        cases hdt : d.dt with
        | none => simp [hdt] at h
        | some dt =>
          cases hrid : d.run_id with
          | none => simp [hdt, hrid] at h
          | some rid =>
            simp only [hdt, hrid] at h
            by_cases hemp : dt = "" ∨ rid = ""
            · simp [hemp] at h
            · simp only [hemp, if_false] at h
              cases hrun : lookupRun a.runs dt rid with
              | none => rw [hrun] at h; cases h
              | some r =>
                rw [hrun] at h
                cases h
                exact ⟨rfl, hrun⟩
  · simp [hd] at h

/-- An account resolves exactly when it satisfies the validity
condition of the spec. -/
theorem resolveAccount_isSome_iff (vault_root source_path : String) (a : AccountDir) :
    (resolveAccount vault_root source_path a).isSome = true ↔ validAccount a := by
  constructor
  · intro h
    rw [Option.isSome_iff_exists] at h
    obtain ⟨fm, hfm⟩ := h
    unfold resolveAccount at hfm
    by_cases hd : a.isDir
    · simp only [hd] at hfm
      cases hl : a.latest with
      | none => rw [hl] at hfm; cases hfm
      | some e =>
        rw [hl] at hfm
        cases e with
        | error msg => cases hfm
        | ok d =>
          cases hdt : d.dt with
          | none => simp [hdt] at hfm
          | some dt =>
            cases hrid : d.run_id with
            | none => simp [hdt, hrid] at hfm
            | some rid =>
              simp only [hdt, hrid] at hfm
              by_cases hemp : dt = "" ∨ rid = ""
              · simp [hemp] at hfm
              · simp only [hemp, if_false] at hfm
                cases hrun : lookupRun a.runs dt rid with
                | none => rw [hrun] at hfm; cases hfm
                | some r =>
                  push_neg at hemp
                  exact ⟨by simpa using hd, d, hl, dt, rid, hdt, hrid, hemp.1,
                    hemp.2, by rw [hrun]; rfl⟩
    · simp [hd] at hfm
  · intro hv
    obtain ⟨hdir, d, hl, dt, rid, hdt, hrid, hdtne, hridne, hrun⟩ := hv
    obtain ⟨r, hr⟩ := Option.isSome_iff_exists.mp hrun
    unfold resolveAccount
    simp [hdir, hl, hdt, hrid, hdtne, hridne, hr]

/-- The account names of the resolved manifests form a sublist of the
account directory names. -/
theorem find_names_sublist (vault_root source_path : String) (accounts : List AccountDir) :
    ((accounts.filterMap (resolveAccount vault_root source_path)).map
      FoundManifest.account_name).Sublist (accounts.map AccountDir.name) := by
  induction accounts with
  | nil => simp
  | cons a rest ih =>
    cases hra : resolveAccount vault_root source_path a with
    | none =>
      simp only [List.filterMap_cons, hra, List.map_cons]
      exact ih.cons (AccountDir.name a)
    | some fm =>
      simp only [List.filterMap_cons, hra, List.map_cons]
      rw [resolveAccount_name vault_root source_path a fm hra]
      exact ih.cons₂ (AccountDir.name a)

/-- C5: when the external engine exits with a non-zero code, the part
transformer raises a hard failure: it returns the canonizer error
message, the part loop stops with the filesystem state unchanged so
nothing is appended to the output file, the message spells out the exit
code and, when standard error is non-empty, the first 500 characters of
standard error, and that excerpt never exceeds 500 characters. -/
theorem C5_nonzero_exit_is_hard_failure (engine : String → EngineResult)
    (partFiles : List (String × String)) (output_file : String) (p : Part)
    (rest : List Part) (total : Nat) (st : OutState) (input_data : String)
    (hlk : lookupA partFiles p.path = some input_data)
    (hrc : (engine input_data).returncode ≠ 0) :
    transform_gzip_part engine p.path input_data (lookupA st.files output_file) =
      .error (canonizerErrorMsg p.path (engine input_data).returncode
        (engine input_data).stderr) ∧
    processParts engine partFiles output_file (p :: rest) total st =
      (st, .error (canonizerErrorMsg p.path (engine input_data).returncode
        (engine input_data).stderr)) ∧
    ((engine input_data).stderr ≠ "" →
      canonizerErrorMsg p.path (engine input_data).returncode (engine input_data).stderr =
        "Canonizer failed on " ++ p.path ++ " with exit code " ++
          toString (engine input_data).returncode ++ ": " ++
          takeChars (engine input_data).stderr 500) ∧
    (takeChars (engine input_data).stderr 500).length ≤ 500 := by
  have h1 : transform_gzip_part engine p.path input_data (lookupA st.files output_file) =
      .error (canonizerErrorMsg p.path (engine input_data).returncode
        (engine input_data).stderr) := by
    simp [transform_gzip_part, hrc]
  refine ⟨h1, ?_, ?_, ?_⟩
  · simp only [processParts, hlk, h1]
  · intro hs
    simp [canonizerErrorMsg, hs]
  · show (String.mk ((engine input_data).stderr.data.take 500)).length ≤ 500
    rw [String.length_mk, List.length_take]
    exact Nat.min_le_left _ _

/-- Witness for C5: a concrete failing engine run with exit code 3 and
diagnostic text, on a part that exists, leaves the state untouched and
reports the expected message. -/
theorem C5_witness :
    processParts failEngine [("p0", "data")] "out/email_gmail/acct.jsonl"
        [⟨some 0, "p0"⟩] 0 demoStaleState =
      (demoStaleState, .error (canonizerErrorMsg "p0" 3 "boom")) ∧
    canonizerErrorMsg "p0" 3 "boom" =
      "Canonizer failed on p0 with exit code 3: boom" :=
  ⟨(C5_nonzero_exit_is_hard_failure failEngine [("p0", "data")]
      "out/email_gmail/acct.jsonl" ⟨some 0, "p0"⟩ [] 0 demoStaleState "data"
      (by decide) (by decide)).2.1, by decide⟩

/-- C6: when the external engine exits with code zero, the captured
standard output is appended to the prior content of the output file
(never overwriting it), and the returned record count is the number of
newline characters of the captured output, so an empty output counts
zero and every trailing newline adds one. -/
theorem C6_success_appends_and_counts_newlines (engine : String → EngineResult)
    (partName input_data : String) (outFileContent : Option String)
    (hrc : (engine input_data).returncode = 0) :
    transform_gzip_part engine partName input_data outFileContent =
      .ok (countNewlines (engine input_data).stdout,
        outFileContent.getD "" ++ (engine input_data).stdout) ∧
    countNewlines "" = 0 ∧
    (∀ s : String, countNewlines (s ++ "\n") = countNewlines s + 1) := by
  refine ⟨by simp [transform_gzip_part, hrc], rfl, ?_⟩
  intro s
  simp only [countNewlines, String.data_append, List.count_append]
  have h1 : List.count '\n' "\n".data = 1 := by decide
  rw [h1]

/-- Witness for C6: a concrete successful engine run appends to the
existing content and counts one newline; empty output counts zero and a
trailing blank line is counted. -/
theorem C6_witness :
    transform_gzip_part echoEngine "p" "a" (some "old\n") = .ok (1, "old\na\n") ∧
    countNewlines "" = 0 ∧
    countNewlines "x\n\n" = 2 := by
  have h := C6_success_appends_and_counts_newlines echoEngine "p" "a" (some "old\n")
    (by decide)
  refine ⟨?_, h.2.1, by decide⟩
  rw [h.1]
  decide

/-- C9: a manifest that parses but whose parts list is empty or missing
makes transform_from_manifest return 0 with the filesystem state
completely unchanged: no output file is written, no file is deleted and
no directory is created. -/
theorem C9_empty_parts_return_zero_without_writing (engine : String → EngineResult)
    (transform_registry : String) (registryNames : List String) (transform_name : String)
    (run : RunDir) (output_dir output_name : String) (st : OutState) (m : Manifest)
    (hm : run.manifest = .ok m) (hp : m.parts.getD [] = []) :
    transform_from_manifest engine transform_registry registryNames transform_name
        run output_dir output_name st = (st, .ok 0) := by
  simp [transform_from_manifest, hm, hp]

/-- Witness for C9: a manifest with an empty parts list and one with no
parts key both return 0 and leave the state exactly as it was. -/
theorem C9_witness :
    transform_from_manifest demoEngine "reg" ["t"] "t" demoEmptyPartsRun "out"
        "canonical" demoStaleState = (demoStaleState, .ok 0) ∧
    transform_from_manifest demoEngine "reg" ["t"] "t" demoNoPartsKeyRun "out"
        "canonical" ⟨[], []⟩ = (⟨[], []⟩, .ok 0) :=
  ⟨C9_empty_parts_return_zero_without_writing demoEngine "reg" ["t"] "t"
      demoEmptyPartsRun "out" "canonical" demoStaleState
      ⟨some "acct", some "email/gmail", some []⟩ rfl (by decide),
    C9_empty_parts_return_zero_without_writing demoEngine "reg" ["t"] "t"
      demoNoPartsKeyRun "out" "canonical" ⟨[], []⟩
      ⟨some "acct", some "email/gmail", none⟩ rfl (by decide)⟩

/-- C10: for a manifest with a non-empty parts list whose transform meta
file does not exist, transform_from_manifest raises the metadata error
before creating the per-source directory and before deleting the old
output file: the returned filesystem state is exactly the input state. -/
theorem C10_missing_meta_leaves_state_unchanged (engine : String → EngineResult)
    (transform_registry : String) (registryNames : List String) (transform_name : String)
    (run : RunDir) (output_dir output_name : String) (st : OutState) (m : Manifest)
    (hm : run.manifest = .ok m) (hp : m.parts.getD [] ≠ [])
    (hmeta : registryNames.contains transform_name = false) :
    transform_from_manifest engine transform_registry registryNames transform_name
        run output_dir output_name st =
      (st, .error ("Transform metadata not found: " ++ transform_registry ++ "/" ++
        transform_name ++ ".meta.yaml")) := by
  simp [transform_from_manifest, hm, hp, hmeta]
  intro hmem
  exact absurd hmem (by simpa using hmeta)

/-- Witness for C10: with an empty registry the demo manifest fails with
the metadata message while the stale state, file included, survives
untouched. -/
theorem C10_witness :
    transform_from_manifest demoEngine "reg" [] "t" demoRun "out" "canonical"
        demoStaleState =
      (demoStaleState, .error "Transform metadata not found: reg/t.meta.yaml") := by
  have h := C10_missing_meta_leaves_state_unchanged demoEngine "reg" [] "t" demoRun
    "out" "canonical" demoStaleState demoManifest rfl (by decide) (by decide)
  rw [h]
  decide

/-- C3 counterexample: the claim extends the delete-and-rebuild
behaviour to manifests with an empty parts list, but for such a manifest
the function returns before the delete step, so the content of the
per-account output file after processing depends on what the file
contained before: starting from a stale file the stale content survives,
starting from an empty state no file exists at all. -/
theorem C3_counterexample :
    transform_from_manifest demoEngine "reg" ["t"] "t" demoEmptyPartsRun "out"
        "canonical" demoStaleState = (demoStaleState, .ok 0) ∧
    lookupA (transform_from_manifest demoEngine "reg" ["t"] "t" demoEmptyPartsRun "out"
        "canonical" demoStaleState).1.files "out/email_gmail/acct.jsonl" =
      some "stale\n" ∧
    lookupA (transform_from_manifest demoEngine "reg" ["t"] "t" demoEmptyPartsRun "out"
        "canonical" ⟨[], []⟩).1.files "out/email_gmail/acct.jsonl" = none := by
  decide

/-- C3 amended: for every manifest that parses, has a non-empty parts
list and whose transform meta exists, the outcome of
transform_from_manifest and the resulting content of the per-account
output file do not depend on the prior filesystem state: the old file is
deleted first and rebuilt from scratch, so reprocessing the same
LATEST-pinned manifest with the same deterministic engine always leaves
byte-identical canonical output content. -/
theorem C3_rebuild_is_state_independent (engine : String → EngineResult)
    (transform_registry : String) (registryNames : List String) (transform_name : String)
    (run : RunDir) (output_dir output_name : String) (st₁ st₂ : OutState) (m : Manifest)
    (hm : run.manifest = .ok m) (hne : m.parts.getD [] ≠ [])
    (hmeta : registryNames.contains transform_name = true) :
    (transform_from_manifest engine transform_registry registryNames transform_name
        run output_dir output_name st₁).2 =
      (transform_from_manifest engine transform_registry registryNames transform_name
        run output_dir output_name st₂).2 ∧
    lookupA (transform_from_manifest engine transform_registry registryNames
        transform_name run output_dir output_name st₁).1.files
        (outputFileOf output_dir m) =
      lookupA (transform_from_manifest engine transform_registry registryNames
        transform_name run output_dir output_name st₂).1.files
        (outputFileOf output_dir m) := by
  rw [transform_from_manifest_processing engine transform_registry registryNames
    transform_name run output_dir output_name st₁ m hm hne hmeta]
  rw [transform_from_manifest_processing engine transform_registry registryNames
    transform_name run output_dir output_name st₂ m hm hne hmeta]
  exact processParts_content_congr engine run.partFiles (outputFileOf output_dir m)
    (sortParts (m.parts.getD [])) 0
    ⟨insertDir (accountOutputDir output_dir m) st₁.dirs,
      removeFile (outputFileOf output_dir m) st₁.files⟩
    ⟨insertDir (accountOutputDir output_dir m) st₂.dirs,
      removeFile (outputFileOf output_dir m) st₂.files⟩
    (by rw [lookupA_removeFile_self, lookupA_removeFile_self])

/-- Witness for the amended C3: the demo manifest processed from the
stale state and from the empty state returns the same outcome and the
same output file content. -/
theorem C3_witness :
    (transform_from_manifest demoEngine "reg" ["t"] "t" demoRun "out" "canonical"
        demoStaleState).2 =
      (transform_from_manifest demoEngine "reg" ["t"] "t" demoRun "out" "canonical"
        ⟨[], []⟩).2 ∧
    lookupA (transform_from_manifest demoEngine "reg" ["t"] "t" demoRun "out"
        "canonical" demoStaleState).1.files (outputFileOf "out" demoManifest) =
      lookupA (transform_from_manifest demoEngine "reg" ["t"] "t" demoRun "out"
        "canonical" ⟨[], []⟩).1.files (outputFileOf "out" demoManifest) :=
  C3_rebuild_is_state_independent demoEngine "reg" ["t"] "t" demoRun "out" "canonical"
    demoStaleState ⟨[], []⟩ demoManifest rfl (by decide) (by decide)

/-- C4: the parts of a manifest are transformed one at a time in
ascending order of their seq value no matter how they are listed: the
processing order is a permutation of the listed parts sorted by the seq
key, seq values need not be contiguous since any integers are ordered,
the returned record count folds over that sorted order, and the output
file content is the engine outputs of the sorted parts appended one
after the other in exactly that order. -/
theorem C4_parts_processed_in_ascending_seq_order (engine : String → EngineResult)
    (transform_registry : String) (registryNames : List String) (transform_name : String)
    (run : RunDir) (output_dir output_name : String) (st : OutState) (m : Manifest)
    (ps : List Part) (hm : run.manifest = .ok m) (hps : m.parts = some ps)
    (hne : ps ≠ []) (hmeta : registryNames.contains transform_name = true)
    (hok : ∀ p ∈ sortParts ps, ∀ c, lookupA run.partFiles p.path = some c →
      (engine c).returncode = 0) :
    (sortParts ps).Perm ps ∧
    (sortParts ps).Sorted partLe ∧
    (transform_from_manifest engine transform_registry registryNames transform_name
        run output_dir output_name st).2 =
      .ok (runRecords engine run.partFiles (sortParts ps)) ∧
    lookupA (transform_from_manifest engine transform_registry registryNames
        transform_name run output_dir output_name st).1.files
        (outputFileOf output_dir m) =
      runContent engine run.partFiles (sortParts ps) none := by
  have hgetD : m.parts.getD [] = ps := by rw [hps]; rfl
  have hne2 : m.parts.getD [] ≠ [] := by rw [hgetD]; exact hne
  have heq := transform_from_manifest_processing engine transform_registry registryNames
    transform_name run output_dir output_name st m hm hne2 hmeta
  rw [hgetD] at heq
  have hrun := processParts_run engine run.partFiles (outputFileOf output_dir m)
    (sortParts ps) hok 0
    ⟨insertDir (accountOutputDir output_dir m) st.dirs,
      removeFile (outputFileOf output_dir m) st.files⟩
  refine ⟨List.perm_insertionSort partLe ps, List.sorted_insertionSort partLe ps,
    ?_, ?_⟩
  · rw [heq, hrun.1, Nat.zero_add]
  · rw [heq, hrun.2.1]
    rw [show lookupA (removeFile (outputFileOf output_dir m) st.files)
        (outputFileOf output_dir m) = none from
      lookupA_removeFile_self (outputFileOf output_dir m) st.files]

/-- Witness for C4: parts listed with seq values 2, 0, 7 are sorted into
the order 0, 2, 7, the three parts produce three records, and the echo
outputs appear in the output file in sorted order. -/
theorem C4_witness :
    sortParts demoUnorderedParts =
      [⟨some 0, "pa"⟩, ⟨some 2, "pc"⟩, ⟨some 7, "pb"⟩] ∧
    (sortParts demoUnorderedParts).Perm demoUnorderedParts ∧
    (sortParts demoUnorderedParts).Sorted partLe ∧
    (transform_from_manifest echoEngine "reg" ["t"] "t" demoUnorderedRun "out"
        "canonical" ⟨[], []⟩).2 = .ok 3 ∧
    lookupA (transform_from_manifest echoEngine "reg" ["t"] "t" demoUnorderedRun "out"
        "canonical" ⟨[], []⟩).1.files (outputFileOf "out" demoUnorderedManifest) =
      some "A\nC\nB\n" := by
  have h := C4_parts_processed_in_ascending_seq_order echoEngine "reg" ["t"] "t"
    demoUnorderedRun "out" "canonical" ⟨[], []⟩ demoUnorderedManifest
    demoUnorderedParts rfl rfl (by decide) (by decide)
    (fun p hp c hc => rfl)
  refine ⟨by decide, h.1, h.2.1, ?_, ?_⟩
  · rw [h.2.2.1]
    decide
  · rw [h.2.2.2]
    decide

/-- C8: a part whose file is missing on disk is skipped and the
remaining parts are still processed: under a succeeding engine the
returned count is the fold over the sorted parts in which a missing part
contributes nothing and a present part contributes its newline count,
and dropping a missing part from the front of any part list leaves that
fold unchanged. -/
theorem C8_missing_parts_skipped_rest_processed (engine : String → EngineResult)
    (transform_registry : String) (registryNames : List String) (transform_name : String)
    (run : RunDir) (output_dir output_name : String) (st : OutState) (m : Manifest)
    (ps : List Part) (hm : run.manifest = .ok m) (hps : m.parts = some ps)
    (hne : ps ≠ []) (hmeta : registryNames.contains transform_name = true)
    (hok : ∀ p ∈ sortParts ps, ∀ c, lookupA run.partFiles p.path = some c →
      (engine c).returncode = 0) :
    (transform_from_manifest engine transform_registry registryNames transform_name
        run output_dir output_name st).2 =
      .ok (runRecords engine run.partFiles (sortParts ps)) ∧
    (∀ (q : Part) (qs : List Part), lookupA run.partFiles q.path = none →
      runRecords engine run.partFiles (q :: qs) =
        runRecords engine run.partFiles qs) := by
  have hgetD : m.parts.getD [] = ps := by rw [hps]; rfl
  have hne2 : m.parts.getD [] ≠ [] := by rw [hgetD]; exact hne
  have heq := transform_from_manifest_processing engine transform_registry registryNames
    transform_name run output_dir output_name st m hm hne2 hmeta
  rw [hgetD] at heq
  have hrun := processParts_run engine run.partFiles (outputFileOf output_dir m)
    (sortParts ps) hok 0
    ⟨insertDir (accountOutputDir output_dir m) st.dirs,
      removeFile (outputFileOf output_dir m) st.files⟩
  constructor
  · rw [heq, hrun.1, Nat.zero_add]
  · intro q qs hq
    simp [runRecords, hq]

/-- Witness for C8: a manifest with three parts of which the middle one
is missing still processes the other two and returns their combined
count of three records; the missing part contributes nothing. -/
theorem C8_witness :
    (transform_from_manifest idEngine "reg" ["t"] "t" demoMissingPartRun "out"
        "canonical" ⟨[], []⟩).2 = .ok 3 ∧
    lookupA demoMissingPartRun.partFiles "p1" = none ∧
    runRecords idEngine demoMissingPartRun.partFiles
        [⟨some 1, "p1"⟩, ⟨some 2, "p2"⟩] =
      runRecords idEngine demoMissingPartRun.partFiles [⟨some 2, "p2"⟩] := by
  have h := C8_missing_parts_skipped_rest_processed idEngine "reg" ["t"] "t"
    demoMissingPartRun "out" "canonical" ⟨[], []⟩ demoMissingPartManifest
    ([⟨some 0, "p0"⟩, ⟨some 1, "p1"⟩, ⟨some 2, "p2"⟩]) rfl rfl (by decide) (by decide)
    (fun p hp c hc => rfl)
  refine ⟨?_, by decide, h.2 ⟨some 1, "p1"⟩ [⟨some 2, "p2"⟩] (by decide)⟩
  rw [h.1]
  decide

/-- C7: the locator returns an empty list when the source directory does
not exist, yields exactly one manifest per account that is a directory
with a parsing LATEST.json whose dt and run_id are present and non-empty
and whose target manifest exists (and none for any other account), every
returned manifest carries the path built from the marker fields and
points at an existing run, and an account that fails to resolve, for
instance because reading its marker raises, never affects what the other
accounts contribute. -/
theorem C7_locator_returns_one_manifest_per_valid_account (vault_root : String)
    (vault : List (String × List AccountDir)) (source_path : String)
    (accounts : List AccountDir)
    (hs : lookupSource vault source_path = some accounts)
    (hnd : (accounts.map AccountDir.name).Nodup) :
    (∀ sp2, lookupSource vault sp2 = none → find_manifests vault_root vault sp2 = []) ∧
    (∀ a ∈ accounts, (validAccount a ↔
      ∃ fm ∈ find_manifests vault_root vault source_path,
        fm.account_name = a.name)) ∧
    (∀ a ∈ accounts, (find_manifests vault_root vault source_path).countP
      (fun fm => fm.account_name == a.name) ≤ 1) ∧
    (∀ fm ∈ find_manifests vault_root vault source_path, ∃ a ∈ accounts,
      resolveAccount vault_root source_path a = some fm ∧
      fm.path = vault_root ++ "/" ++ source_path ++ "/" ++ a.name ++ "/dt=" ++ fm.dt ++
        "/run_id=" ++ fm.run_id ++ "/manifest.json" ∧
      lookupRun a.runs fm.dt fm.run_id = some fm.run) ∧
    (∀ (xs ys : List AccountDir) (bad : AccountDir),
      resolveAccount vault_root source_path bad = none →
      (xs ++ bad :: ys).filterMap (resolveAccount vault_root source_path) =
        (xs ++ ys).filterMap (resolveAccount vault_root source_path)) := by
  have hfm : find_manifests vault_root vault source_path =
      accounts.filterMap (resolveAccount vault_root source_path) := by
    simp [find_manifests, hs]
  refine ⟨?_, ?_, ?_, ?_, ?_⟩
  · intro sp2 h2
    simp [find_manifests, h2]
  · intro a ha
    constructor
    · intro hv
      have hsome := (resolveAccount_isSome_iff vault_root source_path a).mpr hv
      obtain ⟨fm, hfm2⟩ := Option.isSome_iff_exists.mp hsome
      refine ⟨fm, ?_, resolveAccount_name vault_root source_path a fm hfm2⟩
      rw [hfm]
      exact List.mem_filterMap.mpr ⟨a, ha, hfm2⟩
    · rintro ⟨fm, hmem, hname⟩
      rw [hfm] at hmem
      obtain ⟨b, hb, hrb⟩ := List.mem_filterMap.mp hmem
      have hbname : b.name = a.name := by
        rw [← resolveAccount_name vault_root source_path b fm hrb]
        exact hname
      have hba : b = a := List.inj_on_of_nodup_map hnd hb ha hbname
      rw [← hba]
      rw [← resolveAccount_isSome_iff vault_root source_path b]
      rw [hrb]
      rfl
  · intro a ha
    have hsub := find_names_sublist vault_root source_path accounts
    have hnames : ((accounts.filterMap (resolveAccount vault_root source_path)).map
        FoundManifest.account_name).Nodup := hnd.sublist hsub
    rw [hfm]
    have hcount : (accounts.filterMap (resolveAccount vault_root source_path)).countP
        (fun fm => fm.account_name == a.name) =
        ((accounts.filterMap (resolveAccount vault_root source_path)).map
          FoundManifest.account_name).count a.name := by
      rw [List.count_eq_countP, List.countP_map]
      rfl
    rw [hcount]
    exact List.nodup_iff_count_le_one.mp hnames a.name
  · intro fm hmem
    rw [hfm] at hmem
    obtain ⟨a, ha, hra⟩ := List.mem_filterMap.mp hmem
    have hpr := resolveAccount_path_run vault_root source_path a fm hra
    exact ⟨a, ha, hra, hpr.1, hpr.2⟩
  · intro xs ys bad hbad
    simp [List.filterMap_append, List.filterMap_cons, hbad]

/-- Witness for C7: the mixed demo vault holds one valid account next to
a non-directory entry, a missing marker, a marker that raises, an empty
dt, a missing run_id and a stale marker; the contract holds for it. -/
theorem C7_witness :
    (∀ sp2, lookupSource demoVault7 sp2 = none →
      find_manifests "vault" demoVault7 sp2 = []) ∧
    (∀ a ∈ demoMixedAccounts, (validAccount a ↔
      ∃ fm ∈ find_manifests "vault" demoVault7 "email/gmail",
        fm.account_name = a.name)) ∧
    (∀ a ∈ demoMixedAccounts, (find_manifests "vault" demoVault7 "email/gmail").countP
      (fun fm => fm.account_name == a.name) ≤ 1) ∧
    (∀ fm ∈ find_manifests "vault" demoVault7 "email/gmail", ∃ a ∈ demoMixedAccounts,
      resolveAccount "vault" "email/gmail" a = some fm ∧
      fm.path = "vault" ++ "/" ++ "email/gmail" ++ "/" ++ a.name ++ "/dt=" ++ fm.dt ++
        "/run_id=" ++ fm.run_id ++ "/manifest.json" ∧
      lookupRun a.runs fm.dt fm.run_id = some fm.run) ∧
    (∀ (xs ys : List AccountDir) (bad : AccountDir),
      resolveAccount "vault" "email/gmail" bad = none →
      (xs ++ bad :: ys).filterMap (resolveAccount "vault" "email/gmail") =
        (xs ++ ys).filterMap (resolveAccount "vault" "email/gmail")) :=
  C7_locator_returns_one_manifest_per_valid_account "vault" demoVault7 "email/gmail"
    demoMixedAccounts rfl (by decide)

/-- C1: refuted on the code.  After a run in which the only mapping
fully succeeds, the canonical output written by the stage itself sits at
out/email_gmail/acct.jsonl, a file with the jsonl suffix under the
output directory, yet the declared output-file set of the stage result
is empty: the collection glob is non-recursive and never matches files
inside per-source subdirectories. -/
theorem C1_collected_outputs_miss_subdirectory_files :
    (execute demoEngine "vault" demoVault "reg" ["t"] [⟨"email/gmail", "t", none⟩]
        "out" ⟨[], []⟩).1.output_files = [] ∧
    lookupA (execute demoEngine "vault" demoVault "reg" ["t"]
        [⟨"email/gmail", "t", none⟩] "out" ⟨[], []⟩).2.files
        "out/email_gmail/acct.jsonl" = some "rec\n" ∧
    isDirectJsonlChild "out" "out/email_gmail/acct.jsonl" = false ∧
    isDirectJsonlChild "out" "out/stale.jsonl" = true := by
  decide

/-- C2: refuted on the code.  In the scenario the claim itself names,
mapping A fully succeeds and writes its output file while the only
manifest of mapping B fails, the stage result is success equal to false
with the failure message and no metadata, because the non-recursively
collected output-file set is empty even though the output file of
mapping A exists under the output directory. -/
theorem C2_partial_success_scenario_reports_failure :
    (execute demoEngine "vault" demoVault2 "reg" ["t"] demoMappings2 "out"
        ⟨[], []⟩).1.success = false ∧
    (execute demoEngine "vault" demoVault2 "reg" ["t"] demoMappings2 "out"
        ⟨[], []⟩).1.error_message =
      some ("1 transform(s) failed: Failed to transform manifest " ++
        "vault/email/outlook/acctB/dt=2024-01-02/run_id=r1/manifest.json: " ++
        "Transform metadata not found: reg/t2.meta.yaml") ∧
    (execute demoEngine "vault" demoVault2 "reg" ["t"] demoMappings2 "out"
        ⟨[], []⟩).1.metadata = none ∧
    lookupA (execute demoEngine "vault" demoVault2 "reg" ["t"] demoMappings2 "out"
        ⟨[], []⟩).2.files "out/email_gmail/acct.jsonl" = some "rec\n" := by
  decide

end Lorch
